import Mathlib

/-!
Verification development for the PI data-extractor core
(`src/core/data_worker.py`, class `DataFetchWorker`).

Modelling conventions:
* Timestamps are integers counting seconds on a single consistent clock;
  `timedelta(minutes = m)` becomes `60 * m` seconds.
* Sample values are rationals (the numeric payload of a pandas column).
* A call into the external historian (`server.search(tag)[0]` followed by
  `recorded_values` / `interpolated_values`) is modelled as a function
  returning `Except String …`; `Except.error e` models a raised exception
  with text `e`, `Except.ok s` a successful fetch returning sample list `s`.
  A fetched series is keyed by timestamp (the source builds it from
  `raw.items()` of a dict-like object, so timestamps within one series are
  distinct); lookups take the first matching key.
* A Python dict row is modelled as an association list of key/value pairs,
  faithful whenever the configured tag names are pairwise distinct and none
  collides with the literal column names `Timestamp` / `Status`.
-/

/-- A recorded sample: (timestamp in seconds, value). -/
abbrev Sample : Type := ℤ × ℚ

/-- A fetched series for one tag: the sample list in source order. -/
abbrev Series : Type := List Sample

/-- The historian collaborator for raw recorded values:
`recorded tag start end` models `server.search(tag)[0].recorded_values(start, end)`. -/
structure Source where
  recorded : String → ℤ → ℤ → Except String Series

/-- Window start of `fetch_weighted_process` (line 31):
`sample_time - timedelta(minutes=past_window)`. -/
def wStart (sampleTime pastW : ℤ) : ℤ := sampleTime - 60 * pastW

/-- Window end of `fetch_weighted_process` (line 32):
`sample_time + timedelta(minutes=future_window)`. -/
def wEnd (sampleTime futW : ℤ) : ℤ := sampleTime + 60 * futW

/-- Inverse-distance weight of one sample (line 43):
`1.0 / (abs(t - sample_time).total_seconds() + 1)`. -/
def weight (anchor t : ℤ) : ℚ := 1 / (((t - anchor).natAbs : ℚ) + 1)

/-- The weighted average of line 44:
`(df["Value"] * df["Weight"]).sum() / df["Weight"].sum()`. -/
def weightedAvg (anchor : ℤ) (s : Series) : ℚ :=
  (s.map (fun p => p.2 * weight anchor p.1)).sum / (s.map (fun p => weight anchor p.1)).sum

/-- The warning emitted on a per-tag failure (line 47):
`f"⚠️ {tag} fetch around {sample_time} failed: {e}"`. -/
def errMsgWeighted (tag : String) (sampleTime : ℤ) (e : String) : String :=
  "⚠️ " ++ tag ++ " fetch around " ++ toString sampleTime ++ " failed: " ++ e

/-- Body of the per-tag loop of `fetch_weighted_process` (lines 36-48):
returns the entry stored in `result[tag]` and the warnings emitted. -/
def fetchTagWeighted (src : Source) (pastW futW sampleTime : ℤ) (tag : String) :
    Option ℚ × List String :=
  match src.recorded tag (wStart sampleTime pastW) (wEnd sampleTime futW) with
  | Except.error e => (none, [errMsgWeighted tag sampleTime e])
  | Except.ok s =>
      if s.isEmpty then (none, []) else (some (weightedAvg sampleTime s), [])

/-- Model of `fetch_weighted_process` (lines 28-49): the per-tag result dict,
as an association list in tag order, paired with all emitted warnings. -/
def fetch_weighted_process (src : Source) (pastW futW sampleTime : ℤ) :
    List String → List (String × Option ℚ) × List String
  | [] => ([], [])
  | tag :: rest =>
      let r := fetchTagWeighted src pastW futW sampleTime tag
      let rs := fetch_weighted_process src pastW futW sampleTime rest
      ((tag, r.1) :: rs.1, r.2 ++ rs.2)

/-- First-match key lookup in an association-list row (dict access). -/
def lookupTag {β : Type} (k : String) : List (String × β) → Option β
  | [] => none
  | p :: rest => if p.1 = k then some p.2 else lookupTag k rest

/-- The warning emitted on a per-lab-tag failure (line 61):
`f"⚠️ Lab tag {tag} failed: {e}"`. -/
def labErrMsg (tag e : String) : String := "⚠️ Lab tag " ++ tag ++ " failed: " ++ e

/-- The lab fetch loop of `fetch_lab_samples` (lines 53-61): the successfully
fetched (tag, series) pairs in tag order, and the emitted warnings. -/
def labFetches (src : Source) (startT endT : ℤ) :
    List String → List (String × Series) × List String
  | [] => ([], [])
  | tag :: rest =>
      let rs := labFetches src startT endT rest
      match src.recorded tag startT endT with
      | Except.ok s => ((tag, s) :: rs.1, rs.2)
      | Except.error e => (rs.1, labErrMsg tag e :: rs.2)

/-- Value of a series at an exact timestamp (the join key of `pd.merge` on
`Timestamp`); `none` models the NaN an outer join fills in. -/
def lookupTime (t : ℤ) : Series → Option ℚ
  | [] => none
  | p :: rest => if p.1 = t then some p.2 else lookupTime t rest

/-- The timestamp set of an iterated outer join: the union of all series'
timestamps, first occurrence order, no duplicates. -/
def unionTimes (series : List Series) : List ℤ :=
  (series.map (fun s => s.map Prod.fst)).flatten.dedup

/-- The rows of the iterated outer join on `Timestamp`: one row per union
timestamp, holding each series' value there (or `none` for NaN). -/
def mergedRows (series : List Series) : List (ℤ × List (Option ℚ)) :=
  (unionTimes series).map (fun t => (t, series.map (fun s => lookupTime t s)))

/-- Insert one row into a row list sorted ascending by timestamp. -/
def insertRow {β : Type} (x : ℤ × β) : List (ℤ × β) → List (ℤ × β)
  | [] => [x]
  | y :: ys => if x.1 ≤ y.1 then x :: y :: ys else y :: insertRow x ys

/-- Insertion sort of rows ascending by timestamp (`sort_values("Timestamp")`). -/
def sortRows {β : Type} : List (ℤ × β) → List (ℤ × β)
  | [] => []
  | x :: xs => insertRow x (sortRows xs)

/-- Predicate of `dropna`: a row survives iff every column has a value. -/
def rowComplete (r : ℤ × List (Option ℚ)) : Bool := r.2.all Option.isSome

/-- The exception text of line 63: `ValueError("❌ No lab data found.")`. -/
def noLabDataMsg : String := "❌ No lab data found."

/-- Model of `fetch_lab_samples` (lines 51-67): outer-join all successfully fetched lab
series on exact timestamp, drop incomplete rows, sort ascending; raise iff no
series was fetched. Returns the rows (timestamp, per-lab-tag values) and the
emitted warnings. -/
def fetch_lab_samples (src : Source) (startT endT : ℤ) (labTags : List String) :
    Except String (List (ℤ × List (Option ℚ)) × List String) :=
  let fr := labFetches src startT endT labTags
  if fr.1.isEmpty then Except.error noLabDataMsg
  else
    Except.ok
      (sortRows (List.filter rowComplete (mergedRows (fr.1.map Prod.snd))), fr.2)

/-- One cell of an output row. -/
inductive Cell : Type
  | time (t : ℤ)
  | num (q : ℚ)
  | null
  | stat (s : String)
deriving DecidableEq

/-- An output row: a Python dict, as an ordered association list. -/
abbrev Row : Type := List (String × Cell)

/-- An optional numeric value as a cell (`None` becomes a null cell). -/
def optCell : Option ℚ → Cell
  | some q => Cell.num q
  | none => Cell.null

/-- The per-event row assembly of `fetch_inferential_data` (lines 126-134):
`{"Timestamp": sample_time} | lab_vals | proc_vals`, plus the warnings the
weighted fetch emitted for that event. -/
def inferentialRow (src : Source) (tags : List String) (pastW futW : ℤ)
    (labCols : List String) (r : ℤ × List (Option ℚ)) : Row × List String :=
  let proc := fetch_weighted_process src pastW futW r.1 tags
  ((("Timestamp", Cell.time r.1) ::
      ((labCols.zip r.2).map (fun p => (p.1, optCell p.2)) ++
        proc.1.map (fun p => (p.1, optCell p.2)))), proc.2)

/-- The event loop of `fetch_inferential_data` (line 126), in ascending
lab-row order. -/
def inferentialRows (src : Source) (tags : List String) (pastW futW : ℤ)
    (labCols : List String) (labRows : List (ℤ × List (Option ℚ))) :
    List (Row × List String) :=
  labRows.map (inferentialRow src tags pastW futW labCols)

/-- The result object handed to `data_ready` (lines 110-114 / 145-149). -/
structure ResultTable where
  rows : List Row
  descriptions : List (String × String)
  units : List (String × String)
deriving DecidableEq

/-- Model of `fetch_inferential_data` (lines 120-150): lab rows anchor the weighted
process fetches; a single `Status = 'G'` column is appended to every row
(line 141); descriptions and units are the empty dicts (lines 147-148).
A lab-fetch error propagates (no result is emitted). -/
def fetch_inferential_data (src : Source) (tags labTags : List String)
    (startT endT pastW futW : ℤ) : Except String (ResultTable × List String) :=
  match fetch_lab_samples src startT endT labTags with
  | Except.error e => Except.error e
  | Except.ok (labRows, warns) =>
      let labCols := (labFetches src startT endT labTags).1.map Prod.fst
      let rws := inferentialRows src tags pastW futW labCols labRows
      Except.ok
        ({ rows := rws.map (fun r => r.1 ++ [("Status", Cell.stat "G")]),
           descriptions := [], units := [] },
         warns ++ (rws.map Prod.snd).flatten)

/-- One historian point for the interpolated (grid) fetch: the interpolated
series plus its description and units-of-measurement metadata. -/
structure GridPoint where
  series : Series
  desc : String
  uom : String

/-- The historian collaborator for the grid fetch: `interp tag` models
`server.search(tag)[0].interpolated_values(start, end, interval)` together
with the point's metadata attributes. -/
structure GridSource where
  interp : String → Except String GridPoint

/-- The error emitted on a per-tag grid failure (line 100):
`f"Failed to fetch {tag}: {e}"`. -/
def gridErrMsg (tag e : String) : String := "Failed to fetch " ++ tag ++ ": " ++ e

/-- The grid fetch loop (lines 88-100): successfully fetched (tag, point)
pairs in tag order, and the emitted error messages. -/
def gridFetches (g : GridSource) : List String → List (String × GridPoint) × List String
  | [] => ([], [])
  | tag :: rest =>
      let rs := gridFetches g rest
      match g.interp tag with
      | Except.ok p => ((tag, p) :: rs.1, rs.2)
      | Except.error e => (rs.1, gridErrMsg tag e :: rs.2)

/-- Tab cleanup `.replace('\t', ' ')` applied to metadata strings (lines 96-97). -/
def tabClean (s : String) : String := s.replace "\t" " "

/-- The grid-mode result: the merged dataframe's column names in order, its
rows (timestamp, per-successful-tag values, status), and the metadata maps. -/
structure GridResult where
  columns : List String
  rows : List (ℤ × List (Option ℚ) × String)
  descriptions : List (String × String)
  units : List (String × String)
deriving DecidableEq

/-- The exception text of line 118: `"No process data fetched."`. -/
def noProcessDataMsg : String := "No process data fetched."

/-- Model of `fetch_interpolated_process_data` (lines 83-118): fetch each tag's
interpolated series (failures reported and skipped), outer-join on
`Timestamp`, sort ascending, then append the single `Status = 'G'` column
(line 108); error iff zero tags succeeded. -/
def fetch_interpolated_process_data (g : GridSource) (tags : List String) :
    Except String (GridResult × List String) :=
  let fr := gridFetches g tags
  if fr.1.isEmpty then Except.error noProcessDataMsg
  else
    Except.ok
      ({ columns := "Timestamp" :: (fr.1.map Prod.fst ++ ["Status"]),
         rows := (sortRows (mergedRows (fr.1.map (fun p => p.2.series)))).map
             (fun r => (r.1, r.2, "G")),
         descriptions := fr.1.map (fun p => (p.1, tabClean p.2.desc)),
         units := fr.1.map (fun p => (p.1, tabClean p.2.uom)) }, fr.2)

/-- The `data_ready` protocol seen from the consumer
(`run` lines 69-81, `on_data_ready` in the main window): a successful fetch
replaces the stored table, a failed fetch emits only an error and leaves the
previously delivered table untouched. -/
def deliver {α : Type} (prev : Option α) (r : Except String (α × List String)) : Option α :=
  match r with
  | Except.error _ => prev
  | Except.ok t => some t.1

/-- Maximum of the values of the nonempty series `p :: rest`. -/
def seriesMax : Sample → Series → ℚ
  | p, [] => p.2
  | p, q :: rest => max p.2 (seriesMax q rest)

/-- Minimum of the values of the nonempty series `p :: rest`. -/
def seriesMin : Sample → Series → ℚ
  | p, [] => p.2
  | p, q :: rest => min p.2 (seriesMin q rest)

/-- Concrete source: every recorded-values fetch returns the same two
samples. -/
def srcSingle : Source := ⟨fun _ _ _ => Except.ok [(0, 12), (300, 11)]⟩

/-- Concrete source with one lab tag `LAB1` and one process tag `P1`. -/
def srcLabProc : Source :=
  ⟨fun tag _ _ =>
    if tag = "LAB1" then Except.ok [(100, 5)]
    else if tag = "P1" then Except.ok [(90, 2)]
    else Except.error "not found"⟩

/-- Concrete source where tag `A` raises and every other tag succeeds. -/
def srcOneFails : Source :=
  ⟨fun tag _ _ =>
    if tag = "A" then Except.error "boom" else Except.ok [(0, 1)]⟩

/-- Concrete source with two lab tags sharing exactly one timestamp. -/
def srcTwoLabs : Source :=
  ⟨fun tag _ _ =>
    if tag = "LAB1" then Except.ok [(10, 1), (20, 2)]
    else if tag = "LAB2" then Except.ok [(20, 3), (30, 4)]
    else Except.error "not found"⟩

/-- Concrete source where every fetch raises. -/
def srcAllFail : Source := ⟨fun _ _ _ => Except.error "down"⟩

/-- Concrete grid source where only tag `T1` succeeds. -/
def gridOneFails : GridSource :=
  ⟨fun tag =>
    if tag = "T1" then Except.ok ⟨[(0, 1), (60, 2)], "d1", "u1"⟩
    else Except.error "not found"⟩

/-- Concrete grid source: `T1` has three grid points, `T2` only two of those
three timestamps. -/
def gridTwoTags : GridSource :=
  ⟨fun tag =>
    if tag = "T1" then Except.ok ⟨[(0, 1), (60, 2), (120, 3)], "d1", "u1"⟩
    else if tag = "T2" then Except.ok ⟨[(0, 10), (120, 30)], "d2", "u2"⟩
    else Except.error "not found"⟩

/-- A previously delivered result table, for the delivery-protocol claims. -/
def prevTable : ResultTable :=
  ⟨[[("Timestamp", Cell.time 0), ("Status", Cell.stat "G")]], [], []⟩

/-- The inferential result produced by `srcLabProc` over one lab event. -/
def rtLabProc : ResultTable :=
  ⟨[[("Timestamp", Cell.time 100), ("LAB1", Cell.num 5),
     ("P1", Cell.num (weightedAvg 100 [(90, 2)])), ("Status", Cell.stat "G")]],
   [], []⟩

/-- The grid result produced by `gridOneFails` on tags `T1`, `T2`. -/
def gridResOne : GridResult :=
  ⟨["Timestamp", "T1", "Status"],
   [(0, [some 1], "G"), (60, [some 2], "G")],
   [("T1", tabClean "d1")], [("T1", tabClean "u1")]⟩

/-- The grid result produced by `gridTwoTags` on tags `T1`, `T2`. -/
def gridResTwo : GridResult :=
  ⟨["Timestamp", "T1", "T2", "Status"],
   [(0, [some 1, some 10], "G"), (60, [some 2, none], "G"),
    (120, [some 3, some 30], "G")],
   [("T1", tabClean "d1"), ("T2", tabClean "d2")],
   [("T1", tabClean "u1"), ("T2", tabClean "u2")]⟩

/-! ### Basic lemmas about the weighting -/

theorem weight_pos (anchor t : ℤ) : 0 < weight anchor t := by
  unfold weight
  positivity

theorem weight_self (anchor : ℤ) : weight anchor anchor = 1 := by
  simp [weight]

theorem fwp_map_fst (src : Source) (pW fW st : ℤ) (tags : List String) :
    (fetch_weighted_process src pW fW st tags).1.map Prod.fst = tags := by
  induction tags with
  | nil => rfl
  | cons tag rest ih => simp [fetch_weighted_process, ih]

theorem fwp_lookup (src : Source) (pW fW st : ℤ) (tag : String) (tags : List String)
    (hmem : tag ∈ tags) :
    lookupTag tag (fetch_weighted_process src pW fW st tags).1
      = some (fetchTagWeighted src pW fW st tag).1 := by
  induction tags with
  | nil => cases hmem
  | cons hd rest ih =>
    by_cases h : hd = tag
    · subst h
      simp [fetch_weighted_process, lookupTag]
    · have hr : tag ∈ rest := by
        rcases List.mem_cons.mp hmem with h2 | h2
        · exact absurd h2.symm h
        · exact h2
      simp [fetch_weighted_process, lookupTag, h, ih hr]

theorem fwp_err_mem (src : Source) (pW fW st : ℤ) (tag e : String) (tags : List String)
    (hmem : tag ∈ tags)
    (herr : src.recorded tag (wStart st pW) (wEnd st fW) = Except.error e) :
    errMsgWeighted tag st e ∈ (fetch_weighted_process src pW fW st tags).2 := by
  induction tags with
  | nil => cases hmem
  | cons hd rest ih =>
    rcases List.mem_cons.mp hmem with h | h
    · subst h
      simp [fetch_weighted_process, fetchTagWeighted, herr]
    · have := ih h
      simp only [fetch_weighted_process]
      exact List.mem_append_right _ this

theorem sum_weights_pos (anchor : ℤ) (p : Sample) (rest : Series) :
    0 < ((p :: rest).map (fun q => weight anchor q.1)).sum := by
  have h0 : 0 ≤ (rest.map (fun q => weight anchor q.1)).sum := by
    apply List.sum_nonneg
    intro x hx
    rcases List.mem_map.mp hx with ⟨q, _, rfl⟩
    exact (weight_pos anchor q.1).le
  rw [List.map_cons, List.sum_cons]
  exact add_pos_of_pos_of_nonneg (weight_pos anchor p.1) h0

theorem weighted_sum_le (anchor : ℤ) (M : ℚ) (s : Series) (h : ∀ q ∈ s, q.2 ≤ M) :
    (s.map (fun q => q.2 * weight anchor q.1)).sum
      ≤ M * (s.map (fun q => weight anchor q.1)).sum := by
  induction s with
  | nil => simp
  | cons p rest ih =>
    rw [List.map_cons, List.sum_cons, List.map_cons, List.sum_cons, mul_add]
    have h1 : p.2 * weight anchor p.1 ≤ M * weight anchor p.1 :=
      mul_le_mul_of_nonneg_right (h p (List.mem_cons_self p rest)) (weight_pos anchor p.1).le
    exact add_le_add h1 (ih fun q hq => h q (List.mem_cons_of_mem _ hq))

theorem le_weighted_sum (anchor : ℤ) (m : ℚ) (s : Series) (h : ∀ q ∈ s, m ≤ q.2) :
    m * (s.map (fun q => weight anchor q.1)).sum
      ≤ (s.map (fun q => q.2 * weight anchor q.1)).sum := by
  induction s with
  | nil => simp
  | cons p rest ih =>
    rw [List.map_cons, List.sum_cons, List.map_cons, List.sum_cons, mul_add]
    have h1 : m * weight anchor p.1 ≤ p.2 * weight anchor p.1 :=
      mul_le_mul_of_nonneg_right (h p (List.mem_cons_self p rest)) (weight_pos anchor p.1).le
    exact add_le_add h1 (ih fun q hq => h q (List.mem_cons_of_mem _ hq))

theorem le_seriesMax (p : Sample) (rest : Series) : ∀ q ∈ p :: rest, q.2 ≤ seriesMax p rest := by
  induction rest generalizing p with
  | nil =>
    intro q hq
    rcases List.mem_cons.mp hq with h | h
    · subst h; exact le_of_eq rfl
    · cases h
  | cons r rs ih =>
    intro q hq
    rw [seriesMax]
    rcases List.mem_cons.mp hq with h | h
    · subst h; exact le_max_left _ _
    · exact le_trans (ih r q h) (le_max_right _ _)

theorem seriesMin_le (p : Sample) (rest : Series) : ∀ q ∈ p :: rest, seriesMin p rest ≤ q.2 := by
  induction rest generalizing p with
  | nil =>
    intro q hq
    rcases List.mem_cons.mp hq with h | h
    · subst h; exact le_of_eq rfl
    · cases h
  | cons r rs ih =>
    intro q hq
    rw [seriesMin]
    rcases List.mem_cons.mp hq with h | h
    · subst h; exact min_le_left _ _
    · exact le_trans (min_le_right _ _) (ih r q h)

/-! ### Lemmas about sorting and the outer join -/

theorem insertRow_mem {β : Type} (x y : ℤ × β) (l : List (ℤ × β)) :
    y ∈ insertRow x l ↔ y = x ∨ y ∈ l := by
  induction l with
  | nil => simp [insertRow]
  | cons z zs ih =>
    rw [insertRow]
    split
    · simp [List.mem_cons]
    · simp only [List.mem_cons, ih]
      tauto

theorem insertRow_length {β : Type} (x : ℤ × β) (l : List (ℤ × β)) :
    (insertRow x l).length = l.length + 1 := by
  induction l with
  | nil => rfl
  | cons z zs ih =>
    rw [insertRow]
    split
    · rfl
    · simp [List.length_cons, ih]

theorem sortRows_mem {β : Type} (y : ℤ × β) (l : List (ℤ × β)) :
    y ∈ sortRows l ↔ y ∈ l := by
  induction l with
  | nil => simp [sortRows]
  | cons z zs ih =>
    rw [sortRows, insertRow_mem]
    simp [List.mem_cons, ih]

theorem sortRows_length {β : Type} (l : List (ℤ × β)) :
    (sortRows l).length = l.length := by
  induction l with
  | nil => rfl
  | cons z zs ih => rw [sortRows, insertRow_length, ih, List.length_cons]

theorem insertRow_pairwise {β : Type} (x : ℤ × β) (l : List (ℤ × β))
    (h : l.Pairwise (fun a b => a.1 ≤ b.1)) :
    (insertRow x l).Pairwise (fun a b => a.1 ≤ b.1) := by
  induction l with
  | nil => simp [insertRow]
  | cons z zs ih =>
    rw [List.pairwise_cons] at h
    rw [insertRow]
    split
    · rename_i hle
      rw [List.pairwise_cons]
      refine ⟨?_, List.pairwise_cons.mpr h⟩
      intro y hy
      rcases List.mem_cons.mp hy with h2 | h2
      · subst h2; exact hle
      · exact le_trans hle (h.1 y h2)
    · rename_i hgt
      rw [List.pairwise_cons]
      refine ⟨?_, ih h.2⟩
      intro y hy
      rcases (insertRow_mem x y zs).mp hy with h2 | h2
      · subst h2; exact le_of_not_le hgt
      · exact h.1 y h2

theorem sortRows_pairwise {β : Type} (l : List (ℤ × β)) :
    (sortRows l).Pairwise (fun a b => a.1 ≤ b.1) := by
  induction l with
  | nil => simp [sortRows]
  | cons z zs ih => exact insertRow_pairwise z (sortRows zs) ih

theorem mergedRows_mem (series : List Series) (t : ℤ) (vs : List (Option ℚ)) :
    (t, vs) ∈ mergedRows series ↔
      t ∈ unionTimes series ∧ vs = series.map (fun s => lookupTime t s) := by
  unfold mergedRows
  rw [List.mem_map]
  constructor
  · rintro ⟨t2, ht2, heq⟩
    have h1 : t2 = t := congrArg Prod.fst heq
    subst h1
    exact ⟨ht2, (congrArg Prod.snd heq).symm⟩
  · rintro ⟨ht, rfl⟩
    exact ⟨t, ht, rfl⟩

theorem lookupTag_eq_none {β : Type} (k : String) (l : List (String × β)) :
    lookupTag k l = none ↔ k ∉ l.map Prod.fst := by
  induction l with
  | nil => simp [lookupTag]
  | cons p rest ih =>
    rw [lookupTag]
    by_cases h : p.1 = k
    · simp [h]
    · simp [h, ih, Ne.symm h]

theorem labFetches_nil_iff (src : Source) (startT endT : ℤ) (tags : List String) :
    (labFetches src startT endT tags).1 = [] ↔
      ∀ tag ∈ tags, ∃ e, src.recorded tag startT endT = Except.error e := by
  induction tags with
  | nil => simp [labFetches]
  | cons tag rest ih =>
    cases h : src.recorded tag startT endT with
    | ok s =>
      simp only [labFetches, h, List.forall_mem_cons]
      constructor
      · intro h2; cases h2
      · rintro ⟨⟨e, he⟩, -⟩
        cases he
    | error e =>
      simp only [labFetches, h, List.forall_mem_cons, ih]
      constructor
      · intro h2; exact ⟨⟨e, rfl⟩, h2⟩
      · rintro ⟨-, h2⟩; exact h2

theorem gridFetches_fst_mem (g : GridSource) (tags : List String) :
    ∀ p ∈ (gridFetches g tags).1, p.1 ∈ tags := by
  induction tags with
  | nil => simp [gridFetches]
  | cons tag rest ih =>
    intro p hp
    cases h : g.interp tag with
    | ok pt =>
      rw [gridFetches, h] at hp
      rcases List.mem_cons.mp hp with h2 | h2
      · subst h2; exact List.mem_cons_self _ _
      · exact List.mem_cons_of_mem _ (ih p h2)
    | error e =>
      rw [gridFetches, h] at hp
      exact List.mem_cons_of_mem _ (ih p hp)

/-! ### Unfolding lemmas for the successful paths -/

theorem fetch_lab_samples_ok (src : Source) (startT endT : ℤ) (labTags : List String)
    (rows : List (ℤ × List (Option ℚ))) (ws : List String)
    (hok : fetch_lab_samples src startT endT labTags = Except.ok (rows, ws)) :
    rows = sortRows (List.filter rowComplete
        (mergedRows ((labFetches src startT endT labTags).1.map Prod.snd)))
      ∧ ws = (labFetches src startT endT labTags).2 := by
  simp only [fetch_lab_samples] at hok
  split at hok
  · cases hok
  · rw [Except.ok.injEq, Prod.mk.injEq] at hok
    exact ⟨hok.1.symm, hok.2.symm⟩

theorem fetch_lab_samples_row (src : Source) (startT endT : ℤ) (labTags : List String)
    (rows : List (ℤ × List (Option ℚ))) (ws : List String)
    (hok : fetch_lab_samples src startT endT labTags = Except.ok (rows, ws)) :
    ∀ r ∈ rows,
      r.2 = ((labFetches src startT endT labTags).1.map Prod.snd).map
          (fun s => lookupTime r.1 s)
        ∧ r.2.all Option.isSome = true := by
  intro r hr
  rw [(fetch_lab_samples_ok src startT endT labTags rows ws hok).1, sortRows_mem,
      List.mem_filter] at hr
  obtain ⟨t, vs⟩ := r
  have h1 := (mergedRows_mem _ t vs).mp hr.1
  exact ⟨h1.2, hr.2⟩

theorem fetch_inferential_ok (src : Source) (tags labTags : List String)
    (startT endT pW fW : ℤ) (rt : ResultTable) (ws2 : List String)
    (hok : fetch_inferential_data src tags labTags startT endT pW fW
        = Except.ok (rt, ws2)) :
    ∃ labRows ws, fetch_lab_samples src startT endT labTags = Except.ok (labRows, ws)
      ∧ rt.rows = (inferentialRows src tags pW fW
            ((labFetches src startT endT labTags).1.map Prod.fst) labRows).map
            (fun r => r.1 ++ [("Status", Cell.stat "G")])
      ∧ rt.descriptions = [] ∧ rt.units = [] := by
  unfold fetch_inferential_data at hok
  cases h : fetch_lab_samples src startT endT labTags with
  | error e => rw [h] at hok; cases hok
  | ok pr =>
    obtain ⟨labRows, ws⟩ := pr
    rw [h] at hok
    rw [Except.ok.injEq, Prod.mk.injEq] at hok
    refine ⟨labRows, ws, rfl, ?_, ?_, ?_⟩
    · rw [← hok.1]
    · rw [← hok.1]
    · rw [← hok.1]

theorem fetch_grid_ok (g : GridSource) (tags : List String)
    (res : GridResult) (ws : List String)
    (hok : fetch_interpolated_process_data g tags = Except.ok (res, ws)) :
    res.columns = "Timestamp" :: ((gridFetches g tags).1.map Prod.fst ++ ["Status"])
      ∧ res.rows = (sortRows (mergedRows
            ((gridFetches g tags).1.map (fun p => p.2.series)))).map
            (fun r => (r.1, r.2, "G"))
      ∧ res.descriptions
          = (gridFetches g tags).1.map (fun p => (p.1, tabClean p.2.desc))
      ∧ res.units = (gridFetches g tags).1.map (fun p => (p.1, tabClean p.2.uom)) := by
  simp only [fetch_interpolated_process_data] at hok
  split at hok
  · cases hok
  · rw [Except.ok.injEq, Prod.mk.injEq] at hok
    rw [← hok.1]
    exact ⟨rfl, rfl, rfl, rfl⟩

/-! ### Remaining helper lemmas -/

theorem labFetches_fst_mem (src : Source) (startT endT : ℤ) (tags : List String) :
    ∀ p ∈ (labFetches src startT endT tags).1, p.1 ∈ tags := by
  induction tags with
  | nil => simp [labFetches]
  | cons tag rest ih =>
    intro p hp
    cases h : src.recorded tag startT endT with
    | ok s =>
      rw [labFetches, h] at hp
      rcases List.mem_cons.mp hp with h2 | h2
      · subst h2; exact List.mem_cons_self _ _
      · exact List.mem_cons_of_mem _ (ih p h2)
    | error e =>
      rw [labFetches, h] at hp
      exact List.mem_cons_of_mem _ (ih p hp)

theorem map_fst_pairmap {α β γ : Type} (f : β → γ) (l : List (α × β)) :
    (l.map (fun p => (p.1, f p.2))).map Prod.fst = l.map Prod.fst := by
  rw [List.map_map]
  rfl

/-! ### Claim theorems -/

/-- C1: for every tag whose in-window fetch returns a non-empty sample set,
the weighted aggregator stores the weighted average Σ(value·w)/Σ(w) with
weight 1/(|t − anchor| in seconds + 1); every in-window sample carries a
strictly positive weight (so all contribute, never a nearest-point pick),
and a sample coinciding with the anchor gets weight exactly 1. -/
theorem weighted_aggregator_is_weighted_average (src : Source) (tags : List String)
    (pastW futW anchor : ℤ) (tag : String) (s : Series) (hmem : tag ∈ tags)
    (hok : src.recorded tag (wStart anchor pastW) (wEnd anchor futW) = Except.ok s)
    (hne : s ≠ []) :
    lookupTag tag (fetch_weighted_process src pastW futW anchor tags).1
        = some (some (weightedAvg anchor s))
      ∧ (∀ p ∈ s, 0 < weight anchor p.1)
      ∧ weight anchor anchor = 1 := by
  refine ⟨?_, fun p _ => weight_pos anchor p.1, weight_self anchor⟩
  rw [fwp_lookup src pastW futW anchor tag tags hmem]
  have h1 : (fetchTagWeighted src pastW futW anchor tag).1
      = some (weightedAvg anchor s) := by
    simp only [fetchTagWeighted, hok]
    simp [List.isEmpty_iff, hne]
  rw [h1]

/-- Witness for C1 at a concrete source returning two in-window samples. -/
theorem weighted_aggregator_is_weighted_average_witness :
    lookupTag "P1" (fetch_weighted_process srcSingle 10 5 0 ["P1"]).1
        = some (some (weightedAvg 0 [(0, 12), (300, 11)]))
      ∧ (∀ p ∈ ([(0, 12), (300, 11)] : Series), 0 < weight 0 p.1)
      ∧ weight 0 0 = 1 :=
  weighted_aggregator_is_weighted_average srcSingle ["P1"] 10 5 0 "P1"
    [(0, 12), (300, 11)] (by simp) rfl (by simp)

/-- C2 counterexample: with recorded time 22:00 (79200 s), past window 20
and future window −180 minutes, the code does not query the window
[18:40, 19:00] = [67200 s, 68400 s] claimed by the spec. -/
theorem query_window_not_actual_time_anchored :
    ¬ (wStart 79200 20 = 67200 ∧ wEnd 79200 (-180) = 68400) := by
  decide

/-- C2 (amended): with recorded time 22:00, past window 20 and future window
−180 minutes, the query window is anchored to the recorded time:
[22:00 − 20 min, 22:00 − 180 min] = [21:40, 19:00] = [78000 s, 68400 s],
whose start lies after its end. -/
theorem query_window_recorded_time_anchored :
    wStart 79200 20 = 78000 ∧ wEnd 79200 (-180) = 68400
      ∧ wEnd 79200 (-180) < wStart 79200 20 := by
  decide

/-- C4: for any anchor and any non-empty in-window sample set, the weighted
average lies within the closed interval of the sample values' minimum and
maximum. -/
theorem aggregate_within_min_max (anchor : ℤ) (p : Sample) (rest : Series) :
    seriesMin p rest ≤ weightedAvg anchor (p :: rest)
      ∧ weightedAvg anchor (p :: rest) ≤ seriesMax p rest := by
  have hw := sum_weights_pos anchor p rest
  constructor
  · rw [weightedAvg, le_div_iff₀ hw]
    exact le_weighted_sum anchor (seriesMin p rest) (p :: rest) (seriesMin_le p rest)
  · rw [weightedAvg, div_le_iff₀ hw]
    exact weighted_sum_le anchor (seriesMax p rest) (p :: rest) (le_seriesMax p rest)

/-- C5: the weighted aggregator records exactly one entry per configured tag;
a raising fetch yields an explicit `None` plus a warning naming the tag and
the anchor time, and an empty-window fetch yields `None` — the remaining
tags are all still present, so one failure never aborts the batch. -/
theorem weighted_fetch_isolates_failures (src : Source) (tags : List String)
    (pW fW anchor : ℤ) (tag e : String) (hmem : tag ∈ tags) :
    (fetch_weighted_process src pW fW anchor tags).1.map Prod.fst = tags
      ∧ (src.recorded tag (wStart anchor pW) (wEnd anchor fW) = Except.error e →
          lookupTag tag (fetch_weighted_process src pW fW anchor tags).1 = some none
            ∧ errMsgWeighted tag anchor e
                ∈ (fetch_weighted_process src pW fW anchor tags).2)
      ∧ (src.recorded tag (wStart anchor pW) (wEnd anchor fW) = Except.ok [] →
          lookupTag tag (fetch_weighted_process src pW fW anchor tags).1 = some none) := by
  refine ⟨fwp_map_fst src pW fW anchor tags, fun herr => ⟨?_, ?_⟩, fun hemp => ?_⟩
  · rw [fwp_lookup src pW fW anchor tag tags hmem]
    simp [fetchTagWeighted, herr]
  · exact fwp_err_mem src pW fW anchor tag e tags hmem herr
  · rw [fwp_lookup src pW fW anchor tag tags hmem]
    simp [fetchTagWeighted, hemp]

/-- Witness for C5: tag `A` raises, tag `B` succeeds; `A` gets an explicit
`None` plus a warning and `B` is still processed. -/
theorem weighted_fetch_isolates_failures_witness :
    (fetch_weighted_process srcOneFails 10 5 0 ["A", "B"]).1.map Prod.fst = ["A", "B"]
      ∧ lookupTag "A" (fetch_weighted_process srcOneFails 10 5 0 ["A", "B"]).1 = some none
      ∧ errMsgWeighted "A" 0 "boom"
          ∈ (fetch_weighted_process srcOneFails 10 5 0 ["A", "B"]).2 :=
  have h := weighted_fetch_isolates_failures srcOneFails ["A", "B"] 10 5 0 "A" "boom"
    (by simp)
  ⟨h.1, (h.2.1 rfl).1, (h.2.1 rfl).2⟩

/-- C6: the lab-sample synchronizer returns exactly the full outer join of
the successfully fetched series on exact timestamp equality with every row
containing a null dropped, sorted ascending by timestamp; no surviving row
holds a null lab value. -/
theorem lab_samples_inner_join (src : Source) (startT endT : ℤ) (labTags : List String)
    (rows : List (ℤ × List (Option ℚ))) (ws : List String)
    (hok : fetch_lab_samples src startT endT labTags = Except.ok (rows, ws)) :
    rows.Pairwise (fun a b => a.1 ≤ b.1)
      ∧ (∀ r ∈ rows, ∀ v ∈ r.2, v.isSome = true)
      ∧ ∀ t vs, ((t, vs) ∈ rows ↔
          t ∈ unionTimes ((labFetches src startT endT labTags).1.map Prod.snd)
            ∧ vs = ((labFetches src startT endT labTags).1.map Prod.snd).map
                (fun s => lookupTime t s)
            ∧ vs.all Option.isSome = true) := by
  obtain ⟨hrows, -⟩ := fetch_lab_samples_ok src startT endT labTags rows ws hok
  subst hrows
  refine ⟨sortRows_pairwise _, ?_, ?_⟩
  · intro r hr v hv
    rw [sortRows_mem, List.mem_filter] at hr
    have h2 := hr.2
    rw [rowComplete, List.all_eq_true] at h2
    exact h2 v hv
  · intro t vs
    rw [sortRows_mem, List.mem_filter, mergedRows_mem]
    constructor
    · rintro ⟨⟨h1, h2⟩, h3⟩
      exact ⟨h1, h2, h3⟩
    · rintro ⟨h1, h2, h3⟩
      exact ⟨⟨h1, h2⟩, h3⟩

/-- Witness for C6: two lab tags sharing exactly the timestamp 20; only that
row survives, fully populated and sorted. -/
theorem lab_samples_inner_join_witness :
    ([((20 : ℤ), [some (2 : ℚ), some 3])]).Pairwise (fun a b => a.1 ≤ b.1)
      ∧ (∀ r ∈ [((20 : ℤ), [some (2 : ℚ), some 3])], ∀ v ∈ r.2, v.isSome = true)
      ∧ ∀ t vs, ((t, vs) ∈ [((20 : ℤ), [some (2 : ℚ), some 3])] ↔
          t ∈ unionTimes ((labFetches srcTwoLabs 0 1000 ["LAB1", "LAB2"]).1.map Prod.snd)
            ∧ vs = ((labFetches srcTwoLabs 0 1000 ["LAB1", "LAB2"]).1.map Prod.snd).map
                (fun s => lookupTime t s)
            ∧ vs.all Option.isSome = true) :=
  lab_samples_inner_join srcTwoLabs 0 1000 ["LAB1", "LAB2"]
    [(20, [some 2, some 3])] [] rfl

/-- C7: the lab fetch raises the fatal `No lab data found` error exactly when
zero lab series were fetched successfully; the error aborts the whole
inferential fetch, no result is emitted, and a previously delivered table is
left untouched. -/
theorem lab_absence_is_sole_fatal_error (src : Source) (tags labTags : List String)
    (startT endT pW fW : ℤ) :
    (fetch_lab_samples src startT endT labTags = Except.error noLabDataMsg ↔
        ∀ tag ∈ labTags, ∃ e, src.recorded tag startT endT = Except.error e)
      ∧ ∀ m, fetch_lab_samples src startT endT labTags = Except.error m →
          fetch_inferential_data src tags labTags startT endT pW fW = Except.error m
            ∧ ∀ prev : Option ResultTable,
                deliver prev (fetch_inferential_data src tags labTags startT endT pW fW)
                  = prev := by
  constructor
  · rw [← labFetches_nil_iff src startT endT labTags]
    constructor
    · intro h
      simp only [fetch_lab_samples] at h
      split at h
      · rename_i hemp
        exact List.isEmpty_iff.mp hemp
      · cases h
    · intro h
      simp only [fetch_lab_samples, h]
      rfl
  · intro m hm
    have h2 : fetch_inferential_data src tags labTags startT endT pW fW
        = Except.error m := by
      simp only [fetch_inferential_data, hm]
    exact ⟨h2, fun prev => by simp only [deliver, h2]⟩

/-- Witness for C7: a source where every fetch raises; the inferential run
fails with the fatal message and the previously delivered table survives. -/
theorem lab_absence_is_sole_fatal_error_witness :
    fetch_inferential_data srcAllFail ["P1"] ["L1"] 0 100 20 0
        = Except.error noLabDataMsg
      ∧ deliver (some prevTable)
          (fetch_inferential_data srcAllFail ["P1"] ["L1"] 0 100 20 0)
          = some prevTable :=
  have h := (lab_absence_is_sole_fatal_error srcAllFail ["P1"] ["L1"] 0 100 20 0).2
    noLabDataMsg rfl
  ⟨h.1, h.2 (some prevTable)⟩

/-- C3 counterexample: a concrete inferential run with one qualifying lab
event whose output row has no `Actual_Sample_Time` column at all. -/
theorem inferential_lacks_actual_sample_time :
    fetch_inferential_data srcLabProc ["P1"] ["LAB1"] 0 1000 20 0
        = Except.ok (rtLabProc, [])
      ∧ rtLabProc.rows ≠ []
      ∧ ∀ row ∈ rtLabProc.rows, lookupTag "Actual_Sample_Time" row = none := by
  refine ⟨rfl, by simp [rtLabProc], ?_⟩
  intro row hrow
  simp only [rtLabProc, List.mem_singleton] at hrow
  subst hrow
  simp [lookupTag]

/-- C3 (amended): every output row of a successful inferential run is
`{Timestamp: recorded_time} ∪ lab_values ∪ process_aggregates ∪ {Status: 'G'}`;
no `Actual_Sample_Time` column exists (whenever no configured tag happens to
carry that name). -/
theorem inferential_row_shape (src : Source) (tags labTags : List String)
    (startT endT pW fW : ℤ) (rt : ResultTable) (ws2 : List String)
    (hok : fetch_inferential_data src tags labTags startT endT pW fW
        = Except.ok (rt, ws2)) :
    ∀ row ∈ rt.rows, ∃ t vs,
      row = ("Timestamp", Cell.time t) ::
          ((((labFetches src startT endT labTags).1.map Prod.fst).zip vs).map
              (fun p => (p.1, optCell p.2)) ++
            ((fetch_weighted_process src pW fW t tags).1.map
                (fun p => (p.1, optCell p.2)) ++ [("Status", Cell.stat "G")]))
        ∧ row.map Prod.fst
            = "Timestamp" :: ((labFetches src startT endT labTags).1.map Prod.fst
                ++ (tags ++ ["Status"]))
        ∧ lookupTag "Timestamp" row = some (Cell.time t)
        ∧ ("Actual_Sample_Time" ∉ labTags → "Actual_Sample_Time" ∉ tags →
            lookupTag "Actual_Sample_Time" row = none) := by
  obtain ⟨labRows, ws, hlab, hrows, -, -⟩ :=
    fetch_inferential_ok src tags labTags startT endT pW fW rt ws2 hok
  intro row hrow
  rw [hrows] at hrow
  rcases List.mem_map.mp hrow with ⟨pre, hpre, hrow2⟩
  rw [inferentialRows] at hpre
  rcases List.mem_map.mp hpre with ⟨r, hr, hpre2⟩
  subst hpre2
  subst hrow2
  have hlen : ((labFetches src startT endT labTags).1.map Prod.fst).length
      = r.2.length := by
    have hv := (fetch_lab_samples_row src startT endT labTags labRows ws hlab r hr).1
    rw [hv, List.length_map, List.length_map, List.length_map]
  have hkeys : ((inferentialRow src tags pW fW
        ((labFetches src startT endT labTags).1.map Prod.fst) r).1
          ++ [("Status", Cell.stat "G")]).map Prod.fst
      = "Timestamp" :: ((labFetches src startT endT labTags).1.map Prod.fst
          ++ (tags ++ ["Status"])) := by
    simp only [inferentialRow, List.cons_append, List.map_cons, List.map_append]
    rw [map_fst_pairmap, map_fst_pairmap,
        List.map_fst_zip _ _ (le_of_eq hlen), fwp_map_fst]
    simp
  refine ⟨r.1, r.2, ?_, hkeys, ?_, ?_⟩
  · simp [inferentialRow, List.cons_append, List.append_assoc]
  · simp [inferentialRow, List.cons_append, lookupTag]
  · intro h1 h2
    rw [lookupTag_eq_none, hkeys]
    intro hmem
    rcases List.mem_cons.mp hmem with h | h
    · exact absurd h (by decide)
    rcases List.mem_append.mp h with h | h
    · rcases List.mem_map.mp h with ⟨p, hp, hfst⟩
      exact h1 (hfst ▸ labFetches_fst_mem src startT endT labTags p hp)
    rcases List.mem_append.mp h with h | h
    · exact h2 h
    · rw [List.mem_singleton] at h
      exact absurd h (by decide)

/-- Witness for C3 (amended) on the concrete one-event run. -/
theorem inferential_row_shape_witness :
    (rtLabProc.rows.headD []).map Prod.fst
        = "Timestamp" :: ((labFetches srcLabProc 0 1000 ["LAB1"]).1.map Prod.fst
            ++ (["P1"] ++ ["Status"]))
      ∧ lookupTag "Actual_Sample_Time" (rtLabProc.rows.headD []) = none := by
  have h := inferential_row_shape srcLabProc ["P1"] ["LAB1"] 0 1000 20 0 rtLabProc [] rfl
    (rtLabProc.rows.headD []) (by simp [rtLabProc])
  rcases h with ⟨t, vs, -, h2, -, h4⟩
  exact ⟨h2, h4 (by decide) (by decide)⟩

/-- C8 counterexample: in process-grid mode a failed tag's column is omitted
from the result table, not filled with nulls — tag `T2` fails and the merged
table has no `T2` column. -/
theorem failed_grid_tag_column_omitted :
    fetch_interpolated_process_data gridOneFails ["T1", "T2"]
        = Except.ok (gridResOne, [gridErrMsg "T2" "not found"])
      ∧ "T2" ∉ gridResOne.columns := by
  exact ⟨rfl, by decide⟩

/-- C8 (amended): in inferential mode a per-process-tag fetch failure
produces an explicit null entry for that tag in every row; in process-grid
mode the result's columns are exactly the timestamp, the successfully
fetched tags and the single status column — a failed tag's column is
omitted. -/
theorem null_vs_omitted_columns :
    (∀ (src : Source) (pW fW anchor : ℤ) (tags : List String) (tag e : String),
        tag ∈ tags →
        src.recorded tag (wStart anchor pW) (wEnd anchor fW) = Except.error e →
        lookupTag tag (fetch_weighted_process src pW fW anchor tags).1 = some none)
      ∧ ∀ (g : GridSource) (tags : List String) (res : GridResult) (ws : List String),
          fetch_interpolated_process_data g tags = Except.ok (res, ws) →
          res.columns
            = "Timestamp" :: ((gridFetches g tags).1.map Prod.fst ++ ["Status"]) := by
  constructor
  · intro src pW fW anchor tags tag e hmem herr
    rw [fwp_lookup src pW fW anchor tag tags hmem]
    simp [fetchTagWeighted, herr]
  · intro g tags res ws hok
    exact (fetch_grid_ok g tags res ws hok).1

/-- Witness for C8 (amended): the failing tag `A` gets an explicit null in
the weighted fetch; the grid result of `gridOneFails` carries exactly the
successful tag columns. -/
theorem null_vs_omitted_columns_witness :
    lookupTag "A" (fetch_weighted_process srcOneFails 10 5 0 ["A", "B"]).1 = some none
      ∧ gridResOne.columns
          = "Timestamp"
              :: ((gridFetches gridOneFails ["T1", "T2"]).1.map Prod.fst ++ ["Status"]) :=
  ⟨null_vs_omitted_columns.1 srcOneFails 10 5 0 ["A", "B"] "A" "boom" (by simp) rfl,
   null_vs_omitted_columns.2 gridOneFails ["T1", "T2"] gridResOne
     [gridErrMsg "T2" "not found"] rfl⟩

/-- C9: the process-grid result has exactly one `Status` column, every row
carries the literal `'G'` there, the rows are sorted ascending (Status is
appended only after the outer join and the sort), and the row count equals
the cardinality of the union of all fetched tags' timestamps. -/
theorem process_grid_single_status (g : GridSource) (tags : List String)
    (res : GridResult) (ws : List String)
    (hok : fetch_interpolated_process_data g tags = Except.ok (res, ws))
    (hst : "Status" ∉ tags) :
    res.columns.count "Status" = 1
      ∧ (∀ r ∈ res.rows, r.2.2 = "G")
      ∧ res.rows.length = (((gridFetches g tags).1.map
            (fun p => p.2.series.map Prod.fst)).flatten).toFinset.card
      ∧ res.rows.Pairwise (fun a b => a.1 ≤ b.1) := by
  obtain ⟨hcols, hrows, -, -⟩ := fetch_grid_ok g tags res ws hok
  refine ⟨?_, ?_, ?_, ?_⟩
  · have hnot : "Status" ∉ (gridFetches g tags).1.map Prod.fst := by
      intro hmem
      rcases List.mem_map.mp hmem with ⟨p, hp, hfst⟩
      exact hst (hfst ▸ gridFetches_fst_mem g tags p hp)
    rw [hcols, List.count_cons, List.count_append,
        List.count_eq_zero.mpr hnot]
    simp
  · intro r hr
    rw [hrows] at hr
    rcases List.mem_map.mp hr with ⟨r2, -, hr2⟩
    rw [← hr2]
  · rw [hrows, List.length_map, sortRows_length, mergedRows, List.length_map,
        unionTimes, List.card_toFinset, List.map_map]
    rfl
  · rw [hrows, List.pairwise_map]
    exact sortRows_pairwise _

/-- Witness for C9: `T1` has three grid timestamps and `T2` two of them; the
result has three rows, one `Status` column and `'G'` everywhere. -/
theorem process_grid_single_status_witness :
    gridResTwo.columns.count "Status" = 1
      ∧ (∀ r ∈ gridResTwo.rows, r.2.2 = "G")
      ∧ gridResTwo.rows.length = (((gridFetches gridTwoTags ["T1", "T2"]).1.map
            (fun p => p.2.series.map Prod.fst)).flatten).toFinset.card
      ∧ gridResTwo.rows.Pairwise (fun a b => a.1 ≤ b.1) :=
  process_grid_single_status gridTwoTags ["T1", "T2"] gridResTwo [] rfl (by decide)

/-- C10: a successful inferential fetch always delivers empty description and
unit maps, for every input and every source behaviour; a successful grid
fetch populates a description and a unit string for each successfully
fetched tag. -/
theorem result_metadata_by_mode :
    (∀ (src : Source) (tags labTags : List String) (startT endT pW fW : ℤ)
        (rt : ResultTable) (ws : List String),
        fetch_inferential_data src tags labTags startT endT pW fW
            = Except.ok (rt, ws) →
        rt.descriptions = [] ∧ rt.units = [])
      ∧ ∀ (g : GridSource) (tags : List String) (res : GridResult) (ws : List String),
          fetch_interpolated_process_data g tags = Except.ok (res, ws) →
          res.descriptions
              = (gridFetches g tags).1.map (fun p => (p.1, tabClean p.2.desc))
            ∧ res.units
              = (gridFetches g tags).1.map (fun p => (p.1, tabClean p.2.uom)) := by
  constructor
  · intro src tags labTags startT endT pW fW rt ws hok
    obtain ⟨labRows, ws2, -, -, hd, hu⟩ :=
      fetch_inferential_ok src tags labTags startT endT pW fW rt ws hok
    exact ⟨hd, hu⟩
  · intro g tags res ws hok
    exact ⟨(fetch_grid_ok g tags res ws hok).2.2.1,
           (fetch_grid_ok g tags res ws hok).2.2.2⟩

/-- Witness for C10 at the two concrete runs. -/
theorem result_metadata_by_mode_witness :
    (rtLabProc.descriptions = [] ∧ rtLabProc.units = [])
      ∧ gridResTwo.descriptions
          = (gridFetches gridTwoTags ["T1", "T2"]).1.map
              (fun p => (p.1, tabClean p.2.desc))
      ∧ gridResTwo.units
          = (gridFetches gridTwoTags ["T1", "T2"]).1.map
              (fun p => (p.1, tabClean p.2.uom)) :=
  have h1 := result_metadata_by_mode.1 srcLabProc ["P1"] ["LAB1"] 0 1000 20 0
    rtLabProc [] rfl
  have h2 := result_metadata_by_mode.2 gridTwoTags ["T1", "T2"] gridResTwo [] rfl
  ⟨h1, h2.1, h2.2⟩
